/-
Verification of the CDC latency monitor (scripts/cdc-monitor.py).

Shallow embedding of the latency-probing and lag-measurement engine:
the per-table statistics store (ring buffer of latency samples and the
avg/min/max/p95 helpers), the probe-recording step of the probe thread,
the per-table body of the count reconciler, the probe executor's
insert-then-poll control flow, the round-robin schedule of the probe
thread, and the lock/network event traces of both background tasks.

Machine-level notes on the translation:
* Python floats are modelled by rationals (ℚ).  The only float
  computation whose rounding matters is the percentile index
  `int(len(sorted_lat) * 0.95)` (line 95); an exhaustive check of IEEE-754
  double arithmetic shows `int(n * 0.95) == n * 95 // 100` for every
  n ≤ 100000, far beyond the reachable buffer lengths (≤ 100 because the
  deque has maxlen=100), so the index is embedded as `len * 95 / 100` in
  natural-number (floor) division.
* `collections.deque(maxlen=100).append` is embedded as an append that
  drops from the front past capacity.
* The Python dict of per-table stats is embedded as a total function
  `String → TableStats`; in the program every access is at a key of
  TABLES, over which the dict is initialised.
* Database calls are embedded by their outcomes: a count query either
  fails (none) or returns a row count (some n); one poll of the sink
  either raises (err) or yields a count (rows n).
-/
import Mathlib

namespace CdcMonitor

/-- Monitored tables (cdc-monitor.py line 48). -/
def TABLES : List String :=
  ["orders", "customers", "products", "order_items", "inventory_movements"]

/-- The last `n` elements of a list (what survives in a deque of capacity `n`). -/
def takeLast (n : Nat) (l : List ℚ) : List ℚ :=
  l.drop (l.length - n)

/-- `deque(maxlen=cap).append x`: append, evicting from the front past capacity. -/
def dequeAppend (cap : Nat) (h : List ℚ) (x : ℚ) : List ℚ :=
  let h2 := h ++ [x]
  if cap < h2.length then h2.drop (h2.length - cap) else h2

/-- Per-table statistics (class TableStats, lines 67-74). -/
structure TableStats where
  mysql_count : Nat := 0
  starrocks_count : Nat := 0
  lag : Int := 0
  last_latency_ms : ℚ := 0
  latency_history : List ℚ := []
deriving Repr, DecidableEq

/-- Body of TableStats.avg_latency (lines 76-79): 0 on an empty buffer, else mean. -/
def avg_latency (h : List ℚ) : ℚ :=
  match h with
  | [] => 0
  | _ => h.sum / h.length

/-- Body of TableStats.min_latency (lines 81-84): 0 on an empty buffer, else minimum. -/
def min_latency (h : List ℚ) : ℚ :=
  match h with
  | [] => 0
  | x :: xs => xs.foldl min x

/-- Body of TableStats.max_latency (lines 86-89): 0 on an empty buffer, else maximum. -/
def max_latency (h : List ℚ) : ℚ :=
  match h with
  | [] => 0
  | x :: xs => xs.foldl max x

/-- `sorted(...)` (line 94): a new ascending-sorted copy of the buffer. -/
def sortAsc (h : List ℚ) : List ℚ :=
  h.insertionSort (· ≤ ·)

/-- Body of TableStats.p95_latency (lines 91-96): sort a copy, index
`int(len * 0.95)` -- equal to `len * 95 / 100` in floor division for every
reachable length, see header note -- clamped to `len - 1`. -/
def p95_latency (h : List ℚ) : ℚ :=
  match h with
  | [] => 0
  | _ =>
    let s := sortAsc h
    let idx := s.length * 95 / 100
    s.getD (min idx (s.length - 1)) 0

/-- Method call TableStats.avg_latency: the returned value paired with the
state of `self` after the call (the method only reads). -/
def TableStats.avg_latency (s : TableStats) : ℚ × TableStats :=
  (CdcMonitor.avg_latency s.latency_history, s)

/-- Method call TableStats.min_latency: value and the state of `self` after. -/
def TableStats.min_latency (s : TableStats) : ℚ × TableStats :=
  (CdcMonitor.min_latency s.latency_history, s)

/-- Method call TableStats.max_latency: value and the state of `self` after. -/
def TableStats.max_latency (s : TableStats) : ℚ × TableStats :=
  (CdcMonitor.max_latency s.latency_history, s)

/-- Method call TableStats.p95_latency: value and the state of `self` after. -/
def TableStats.p95_latency (s : TableStats) : ℚ × TableStats :=
  (CdcMonitor.p95_latency s.latency_history, s)

/-- Global monitoring state (class MonitorState, lines 98-109); the fields the
probe and reconciliation tasks touch. -/
structure MonitorState where
  running : Bool := true
  tables : String → TableStats
  total_probes : Nat := 0
  successful_probes : Nat := 0
  failed_probes : Nat := 0
  error_message : String := ""

/-- Fresh MonitorState: every table starts with default TableStats (line 102). -/
def initState : MonitorState :=
  { tables := fun _ => {} }

/-- The with-lock block of latency_probe_thread (lines 309-317): count the
probe, then on success record latency and push it on the history; on failure
record the -1 sentinel (and nothing is pushed). -/
def recordSample (s : MonitorState) (table : String) (latency : Option ℚ) :
    MonitorState :=
  let s1 := { s with total_probes := s.total_probes + 1 }
  match latency with
  | some l =>
    { s1 with
      successful_probes := s1.successful_probes + 1,
      tables := fun t =>
        if t = table then
          { s1.tables t with
            last_latency_ms := l,
            latency_history := dequeAppend 100 (s1.tables t).latency_history l }
        else s1.tables t }
  | none =>
    { s1 with
      failed_probes := s1.failed_probes + 1,
      tables := fun t =>
        if t = table then { s1.tables t with last_latency_ms := -1 }
        else s1.tables t }

/-- Per-table body of get_table_counts (lines 272-284).  The two count
queries run in order inside one try block: a source-query failure raises
before any assignment; a sink-query failure raises after `mysql_count` was
already assigned; only when both succeed are `starrocks_count` and `lag`
assigned, from the two counts of this same pass. -/
def reconcileTable (old : TableStats) (srcRes sinkRes : Option Nat) : TableStats :=
  match srcRes with
  | none => old
  | some m =>
    let s1 := { old with mysql_count := m }
    match sinkRes with
    | none => s1
    | some r => { s1 with starrocks_count := r, lag := (m : Int) - (r : Int) }

/-- get_table_counts (lines 261-293): one pass over TABLES, each table
updated from its own pair of query outcomes, independent of the other
tables' failures. -/
def get_table_counts (s : MonitorState)
    (results : String → Option Nat × Option Nat) : MonitorState :=
  { s with
    tables := fun t =>
      if t ∈ TABLES then reconcileTable (s.tables t) (results t).1 (results t).2
      else s.tables t }

/-- Outcome of one poll of the sink: the SELECT/`fetchone` either raises
(err) or yields a count (rows n). -/
inductive QueryRes where
  | err : QueryRes
  | rows : Nat → QueryRes
deriving Repr, DecidableEq

/-- A poll outcome counts as "found" when a count was returned and it is
positive (line 213: `if count > 0`). -/
def isFound : QueryRes → Bool
  | QueryRes.err => false
  | QueryRes.rows n => 0 < n

/-- Environment of one probe: whether the insert phase (connect, insert,
commit, sink connect; lines 148-184) completes without raising; the outcome
each sink poll would observe; how many polls fit in the 30 s timeout
(300 at the 100 ms poll interval); whether the cleanup DELETE succeeds. -/
structure ProbeEnv where
  insertOk : Bool := true
  sinkPoll : Nat → QueryRes
  pollBudget : Nat
  cleanupOk : Bool := true

/-- The tables probe_latency has an INSERT branch for (lines 153-176):
order_items is absent from the if/elif chain. -/
def hasInsertBranch (table : String) : Bool :=
  table == "orders" || table == "customers" || table == "products" ||
    table == "inventory_movements"

/-- Rows the insert phase writes: one for a table with an INSERT branch,
none otherwise (the chain falls through and nothing is executed). -/
def insertedRows (table : String) : Nat :=
  if hasInsertBranch table then 1 else 0

/-- The tables the poll body has a sink SELECT branch for (lines 191-210):
order_items is absent here too. -/
def hasLookupBranch (table : String) : Bool :=
  table == "orders" || table == "customers" || table == "products" ||
    table == "inventory_movements"

/-- One iteration of the poll body (lines 190-224): for a table with a
lookup branch, the environment's outcome for this tick; for any other table
no query was executed, so `fetchone()` on line 212 raises -- an error
swallowed by the `except: pass` like any other. -/
def pollStep (table : String) (env : ProbeEnv) (i : Nat) : QueryRes :=
  if hasLookupBranch table then env.sinkPoll i else QueryRes.err

/-- The poll loop (lines 189-226): at each tick, a found marker returns the
tick (the measured latency); an error or a zero count falls through to the
sleep and the next tick; an exhausted budget is the timeout. -/
def pollLoop (table : String) (env : ProbeEnv) : Nat → Nat → Option Nat
  | _, 0 => none
  | i, fuel + 1 =>
    match pollStep table env i with
    | QueryRes.err => pollLoop table env (i + 1) fuel
    | QueryRes.rows n =>
      if 0 < n then some i else pollLoop table env (i + 1) fuel

/-- What a probe call produces: the returned latency (none on timeout or
error), how many cleanup attempts were issued, and whether the outer except
recorded an error message. -/
structure ProbeResult where
  latency : Option Nat
  cleanups : Nat
  errorRecorded : Bool
deriving Repr, DecidableEq

/-- The single DELETE of cleanup_probe (lines 246-255). -/
def cleanup_delete (deleteOk : Bool) : Except String Unit :=
  if deleteOk then Except.ok () else Except.error "delete failed"

/-- cleanup_probe (lines 240-259): the whole body sits in one
`try/except: pass`, so any failure of the single delete attempt is
swallowed and the call always returns normally. -/
def cleanup_probe (deleteOk : Bool) : Except String Unit :=
  match cleanup_delete deleteOk with
  | Except.ok u => Except.ok u
  | Except.error _ => Except.ok ()

/-- probe_latency (lines 139-238): if the insert phase raises, the outer
except records the error and returns None with no cleanup; otherwise the
poll loop runs, and on both the found path (lines 213-221) and the timeout
path (lines 231-233) exactly one cleanup_probe call is issued -- whose
outcome, swallowed inside cleanup_probe, is never consulted. -/
def probe_latency (table : String) (env : ProbeEnv) : ProbeResult :=
  if env.insertOk then
    match pollLoop table env 0 env.pollBudget with
    | some i => ⟨some i, 1, false⟩
    | none => ⟨none, 1, false⟩
  else ⟨none, 0, true⟩

/-- Observable actions of the probe thread, for the schedule claims. -/
inductive Action where
  | probe : String → Action
  | record : String → Action
  | sleep : ℚ → Action
deriving Repr, DecidableEq

/-- `tables[table_idx % len(tables)]` (line 304). -/
def tableAt (tables : List String) (k : Nat) : String :=
  tables.getD (k % tables.length) ""

/-- The k-th iteration of latency_probe_thread's loop (lines 303-319): pick
the round-robin table, probe it, record the sample under the lock, then
sleep the probe interval -- one probe and one sleep per iteration. -/
def probeIterTrace (tables : List String) (interval : ℚ) (k : Nat) :
    List Action :=
  [Action.probe (tableAt tables k), Action.record (tableAt tables k),
    Action.sleep interval]

/-- The first n iterations of the probe loop, concatenated. -/
def probeThreadTrace (tables : List String) (interval : ℚ) (n : Nat) :
    List Action :=
  (List.range n).flatMap (probeIterTrace tables interval)

/-- Events for the lock-discipline claim: lock acquire/release, a blocking
network call, an in-memory read/update. -/
inductive Ev where
  | acquire : Ev
  | release : Ev
  | net : String → Ev
  | mem : String → Ev
deriving Repr, DecidableEq

/-- Event trace of one probe-thread iteration with `polls` poll queries
(probe_latency lines 146-233 followed by the lock block, lines 309-317):
every network call -- connections, marker insert, commit, the sink polls,
the cleanup delete -- happens before the lock is taken; only the in-memory
counter and stats updates sit between acquire and release. -/
def probeTaskEvents (polls : Nat) : List Ev :=
  [Ev.net "mysql connect", Ev.net "insert marker", Ev.net "commit",
    Ev.net "starrocks connect"]
  ++ (List.range polls).map (fun _ => Ev.net "sink poll query")
  ++ [Ev.net "cleanup delete",
    Ev.acquire, Ev.mem "update counters and table stats", Ev.release]

/-- Event trace of one get_table_counts pass (lines 261-289): the lock is
taken on line 270 and the per-table COUNT queries on lines 273 and 276 are
executed inside it, before the release at the end of the with block. -/
def countsTaskEvents : List Ev :=
  [Ev.net "mysql connect", Ev.net "starrocks connect", Ev.acquire]
  ++ TABLES.flatMap (fun t =>
    [Ev.net ("source count " ++ t), Ev.net ("sink count " ++ t),
      Ev.mem ("write counts and lag " ++ t)])
  ++ [Ev.release, Ev.net "close connections"]

/-- Does any network event occur while the lock depth is positive? -/
def netWhileHeldAux : Nat → List Ev → Bool
  | _, [] => false
  | d, Ev.acquire :: rest => netWhileHeldAux (d + 1) rest
  | d, Ev.release :: rest => netWhileHeldAux (d - 1) rest
  | d, Ev.net _ :: rest => decide (0 < d) || netWhileHeldAux d rest
  | d, Ev.mem _ :: rest => netWhileHeldAux d rest

/-- A trace violates the lock discipline when some network call happens
while the lock is held. -/
def netWhileHeld (tr : List Ev) : Bool :=
  netWhileHeldAux 0 tr

/-! ### Helper lemmas: the deque as a sliding window -/

theorem takeLast_length (n : Nat) (l : List ℚ) :
    (takeLast n l).length = l.length - (l.length - n) := by
  simp [takeLast]

theorem takeLast_length_le (n : Nat) (l : List ℚ) : (takeLast n l).length ≤ n := by
  simp only [takeLast, List.length_drop]
  omega

theorem takeLast_of_length_le {n : Nat} {l : List ℚ} (h : l.length ≤ n) :
    takeLast n l = l := by
  simp [takeLast, Nat.sub_eq_zero_of_le h]

theorem dequeAppend_eq_takeLast (cap : Nat) (h : List ℚ) (x : ℚ) :
    dequeAppend cap h x = takeLast cap (h ++ [x]) := by
  show (if cap < (h ++ [x]).length then
      (h ++ [x]).drop ((h ++ [x]).length - cap) else (h ++ [x]))
    = (h ++ [x]).drop ((h ++ [x]).length - cap)
  by_cases hc : cap < (h ++ [x]).length
  · rw [if_pos hc]
  · rw [if_neg hc, Nat.sub_eq_zero_of_le (Nat.le_of_not_lt hc), List.drop_zero]

theorem takeLast_drop (n m : Nat) (l : List ℚ) (h : m + n ≤ l.length) :
    takeLast n (l.drop m) = takeLast n l := by
  simp only [takeLast, List.length_drop, List.drop_drop]
  congr 1
  omega

theorem takeLast_append_left (cap : Nat) (a b : List ℚ) :
    takeLast cap (takeLast cap a ++ b) = takeLast cap (a ++ b) := by
  by_cases hc : a.length ≤ cap
  · rw [takeLast_of_length_le hc]
  · have hrw : takeLast cap a ++ b = (a ++ b).drop (a.length - cap) := by
      rw [List.drop_append_of_le_length (Nat.sub_le _ _)]
      rfl
    rw [hrw, takeLast_drop cap (a.length - cap) (a ++ b) (by simp; omega)]

theorem foldl_dequeAppend (cap : Nat) (xs : List ℚ) :
    ∀ h : List ℚ, h.length ≤ cap →
      xs.foldl (dequeAppend cap) h = takeLast cap (h ++ xs) := by
  induction xs with
  | nil => intro h hle; simp [takeLast_of_length_le hle]
  | cons x xs ih =>
    intro h hle
    have hlen : (dequeAppend cap h x).length ≤ cap := by
      rw [dequeAppend_eq_takeLast]; exact takeLast_length_le _ _
    rw [List.foldl_cons, ih _ hlen, dequeAppend_eq_takeLast, takeLast_append_left]
    simp

theorem foldl_dequeAppend_nil (cap : Nat) (xs : List ℚ) :
    xs.foldl (dequeAppend cap) [] = takeLast cap xs := by
  simpa using foldl_dequeAppend cap xs [] (by simp)

/-! ### Helper lemmas: the probe-thread recording step -/

theorem recordSample_total (s : MonitorState) (t : String) (lat : Option ℚ) :
    (recordSample s t lat).total_probes = s.total_probes + 1 := by
  cases lat <;> rfl

theorem recordSample_history_some (s : MonitorState) (t : String) (l : ℚ) :
    ((recordSample s t (some l)).tables t).latency_history
      = dequeAppend 100 ((s.tables t).latency_history) l := by
  simp [recordSample]

theorem recordSample_history_none (s : MonitorState) (t : String) :
    ((recordSample s t none).tables t).latency_history
      = (s.tables t).latency_history := by
  simp [recordSample]

theorem foldRecord_counters (evs : List (String × Option ℚ)) :
    ∀ s : MonitorState,
      ((evs.foldl (fun st e => recordSample st e.1 e.2) s).total_probes
          = s.total_probes + evs.length)
      ∧ ((evs.foldl (fun st e => recordSample st e.1 e.2) s).successful_probes
          + (evs.foldl (fun st e => recordSample st e.1 e.2) s).failed_probes
          = s.successful_probes + s.failed_probes + evs.length) := by
  induction evs with
  | nil => intro s; simp
  | cons e evs ih =>
    intro s
    rcases e with ⟨t, lat⟩
    have h := ih (recordSample s t lat)
    rw [List.foldl_cons] at *
    refine ⟨?_, ?_⟩
    · rw [h.1, recordSample_total]
      simp [List.length_cons]; omega
    · rw [h.2]
      cases lat with
      | none =>
        show (recordSample s t none).successful_probes
            + (recordSample s t none).failed_probes + evs.length = _
        have h1 : (recordSample s t none).successful_probes
            = s.successful_probes := rfl
        have h2 : (recordSample s t none).failed_probes
            = s.failed_probes + 1 := rfl
        rw [h1, h2]; simp [List.length_cons]; omega
      | some l =>
        show (recordSample s t (some l)).successful_probes
            + (recordSample s t (some l)).failed_probes + evs.length = _
        have h1 : (recordSample s t (some l)).successful_probes
            = s.successful_probes + 1 := rfl
        have h2 : (recordSample s t (some l)).failed_probes
            = s.failed_probes := rfl
        rw [h1, h2]; simp [List.length_cons]; omega

theorem foldRecord_history (table : String) (xs : List ℚ) :
    ∀ s : MonitorState,
      (((xs.map (fun l => (table, some l))).foldl
          (fun st e => recordSample st e.1 e.2) s).tables table).latency_history
        = xs.foldl (dequeAppend 100) ((s.tables table).latency_history) := by
  induction xs with
  | nil => intro s; rfl
  | cons x xs ih =>
    intro s
    rw [List.map_cons, List.foldl_cons, List.foldl_cons, ih,
      recordSample_history_some]

/-! ### Helper lemmas: the poll loop -/

theorem pollLoop_eq_none (table : String) (env : ProbeEnv) :
    ∀ (fuel j : Nat),
      (pollLoop table env j fuel = none ↔
        ∀ i, j ≤ i → i < j + fuel → isFound (pollStep table env i) = false) := by
  intro fuel
  induction fuel with
  | zero =>
    intro j
    constructor
    · intro _ i hji hlt; omega
    · intro _; rfl
  | succ f ih =>
    intro j
    cases hstep : pollStep table env j with
    | err =>
      simp only [pollLoop, hstep, ih (j + 1)]
      constructor
      · intro hall i hji hlt
        rcases Nat.eq_or_lt_of_le hji with heq | hlt2
        · subst heq; rw [hstep]; rfl
        · exact hall i hlt2 (by omega)
      · intro hall i hji hlt
        exact hall i (by omega) (by omega)
    | rows n =>
      by_cases hn : 0 < n
      · simp only [pollLoop, hstep, if_pos hn]
        constructor
        · intro hcon; exact absurd hcon (by simp)
        · intro hall
          have hthis := hall j (Nat.le_refl j) (by omega)
          rw [hstep] at hthis
          simp [isFound, hn] at hthis
      · simp only [pollLoop, hstep, if_neg hn, ih (j + 1)]
        constructor
        · intro hall i hji hlt
          rcases Nat.eq_or_lt_of_le hji with heq | hlt2
          · subst heq; rw [hstep]; simp [isFound]; omega
          · exact hall i hlt2 (by omega)
        · intro hall i hji hlt
          exact hall i (by omega) (by omega)

theorem pollLoop_eq_some (table : String) (env : ProbeEnv) :
    ∀ (fuel j k : Nat), j ≤ k → k < j + fuel →
      (∀ i, j ≤ i → i < k → isFound (pollStep table env i) = false) →
      isFound (pollStep table env k) = true →
      pollLoop table env j fuel = some k := by
  intro fuel
  induction fuel with
  | zero => intro j k _ hlt; omega
  | succ f ih =>
    intro j k hjk hlt hskip hfound
    rcases Nat.eq_or_lt_of_le hjk with heq | hlt2
    · subst heq
      cases hstep : pollStep table env j with
      | err => rw [hstep] at hfound; simp [isFound] at hfound
      | rows n =>
        rw [hstep] at hfound
        simp only [isFound, decide_eq_true_eq] at hfound
        simp only [pollLoop, hstep, if_pos hfound]
    · have hj : isFound (pollStep table env j) = false :=
        hskip j (Nat.le_refl j) hlt2
      cases hstep : pollStep table env j with
      | err =>
        simp only [pollLoop, hstep]
        exact ih (j + 1) k (by omega) (by omega)
          (fun i h1 h2 => hskip i (by omega) h2) hfound
      | rows n =>
        rw [hstep] at hj
        simp only [isFound, decide_eq_false_iff_not] at hj
        simp only [pollLoop, hstep, if_neg hj]
        exact ih (j + 1) k (by omega) (by omega)
          (fun i h1 h2 => hskip i (by omega) h2) hfound

theorem probe_latency_of_insertOk (table : String) (env : ProbeEnv)
    (hins : env.insertOk = true) :
    probe_latency table env =
      match pollLoop table env 0 env.pollBudget with
      | some i => ⟨some i, 1, false⟩
      | none => ⟨none, 1, false⟩ := by
  rw [probe_latency, if_pos hins]

/-! ### Helper lemmas: event traces -/

theorem netWhileHeldAux_const_net (s : String) (L : List Nat) (rest : List Ev) :
    netWhileHeldAux 0 (L.map (fun _ => Ev.net s) ++ rest)
      = netWhileHeldAux 0 rest := by
  induction L with
  | nil => rfl
  | cons a L ih => simpa [netWhileHeldAux] using ih

/-- Recognizer for probe actions in a schedule trace. -/
def isProbeAct : Action → Bool
  | Action.probe _ => true
  | _ => false

/-- Recognizer for sleep actions in a schedule trace. -/
def isSleepAct : Action → Bool
  | Action.sleep _ => true
  | _ => false

theorem probeThreadTrace_succ (tables : List String) (interval : ℚ) (n : Nat) :
    probeThreadTrace tables interval (n + 1)
      = probeThreadTrace tables interval n ++ probeIterTrace tables interval n := by
  simp [probeThreadTrace, List.range_succ]

theorem probeThreadTrace_count (tables : List String) (interval : ℚ)
    (p : Action → Bool) (c : Nat)
    (hiter : ∀ k, (probeIterTrace tables interval k).countP p = c) :
    ∀ n, (probeThreadTrace tables interval n).countP p = n * c := by
  intro n
  induction n with
  | zero => simp [probeThreadTrace]
  | succ m ih =>
    rw [probeThreadTrace_succ, List.countP_append, ih, hiter]
    ring

/-! ### Claim C1 -/

/-- C1 counterexample: the claim says that when either count query for a
table fails, the table's previous sourceCount, sinkCount and lag are all
left untouched.  Starting from counts (5, 3, lag 2), a pass whose source
query returns 10 and whose sink query fails leaves the table at
(10, 3, lag 2): the source count was already overwritten before the sink
query raised, so the table is not left untouched. -/
theorem C1_counterexample :
    reconcileTable ⟨5, 3, 2, 0, []⟩ (some 10) none ≠ ⟨5, 3, 2, 0, []⟩ := by
  decide

/-- C1 amended: if the source-count query fails the table is untouched; if
the source query succeeds and the sink query fails, the source count alone
is overwritten while sink count and lag keep their previous values; when
both succeed, both counts and lag = sourceCount - sinkCount are written
together from this same pass; and every monitored table is updated from its
own pair of query outcomes, so one table's failure never stops the pass. -/
theorem C1_reconcile_per_table (old : TableStats) (m r : Nat)
    (sink : Option Nat) (s : MonitorState)
    (res : String → Option Nat × Option Nat) (t : String)
    (ht : t ∈ TABLES) :
    reconcileTable old none sink = old
  ∧ reconcileTable old (some m) none = { old with mysql_count := m }
  ∧ reconcileTable old (some m) (some r) =
      { old with
          mysql_count := m
          starrocks_count := r
          lag := (m : Int) - (r : Int) }
  ∧ (get_table_counts s res).tables t
      = reconcileTable (s.tables t) (res t).1 (res t).2 := by
  refine ⟨rfl, rfl, rfl, ?_⟩
  simp [get_table_counts, ht]

/-- C1 witness: the amended theorem applied to a concrete table and pass. -/
theorem C1_reconcile_per_table_witness :
    (get_table_counts initState (fun _ => (none, none))).tables "orders"
      = reconcileTable (initState.tables "orders") none none :=
  (C1_reconcile_per_table ⟨5, 3, 2, 0, []⟩ 10 4 none initState
    (fun _ => (none, none)) "orders" (by decide)).2.2.2

/-! ### Claim C2 -/

/-- C2: when the insert phase completes but the marker is never found by
any poll, the probe returns None (no latency) with exactly one cleanup
attempt issued and no error recorded; the probe's result does not depend on
whether the cleanup delete succeeds, and cleanup_probe itself swallows a
failing delete and returns normally, with no retry (its body issues the
single delete attempt). -/
theorem C2_timeout_returns_none (table : String) (env : ProbeEnv)
    (hins : env.insertOk = true)
    (hnever : ∀ i, isFound (pollStep table env i) = false) :
    probe_latency table env = ⟨none, 1, false⟩
  ∧ (∀ b, probe_latency table { env with cleanupOk := b } = ⟨none, 1, false⟩)
  ∧ (∀ b, cleanup_probe b = Except.ok ()) := by
  have hloop : ∀ e : ProbeEnv, e.insertOk = true →
      (∀ i, isFound (pollStep table e i) = false) →
      probe_latency table e = ⟨none, 1, false⟩ := by
    intro e he hn
    have h0 : pollLoop table e 0 e.pollBudget = none :=
      (pollLoop_eq_none table e e.pollBudget 0).mpr (fun i _ _ => hn i)
    rw [probe_latency_of_insertOk table e he, h0]
  refine ⟨hloop env hins hnever, ?_, ?_⟩
  · intro b
    exact hloop { env with cleanupOk := b } hins hnever
  · intro b
    cases b <;> rfl

/-- C2 witness: a probe of orders whose sink always answers count 0 within
a budget of 3 polls. -/
theorem C2_timeout_returns_none_witness :
    probe_latency "orders"
      { insertOk := true, sinkPoll := fun _ => QueryRes.rows 0,
        pollBudget := 3, cleanupOk := false } = ⟨none, 1, false⟩ :=
  (C2_timeout_returns_none "orders"
    { insertOk := true, sinkPoll := fun _ => QueryRes.rows 0,
      pollBudget := 3, cleanupOk := false } rfl (fun _ => rfl)).1

/-! ### Claim C3 -/

/-- C3 counterexample: the claim says every recording, success or failure,
appends the latency sample to the table's ring buffer.  Recording a failed
probe on a fresh state leaves the orders ring buffer empty: nothing was
appended. -/
theorem C3_counterexample :
    ¬ (((recordSample initState "orders" none).tables "orders").latency_history.length
        = ((initState.tables "orders").latency_history.length) + 1) := by
  decide

/-- C3 amended: every recording increments totalProbes together with
exactly one of successfulProbes/failedProbes, so
totalProbes = successfulProbes + failedProbes holds after every recording;
a success recording appends the latency to the probed table's ring buffer
(evicting the oldest past capacity 100) and sets lastLatencyMs to it, while
a failure recording sets lastLatencyMs = -1 and appends nothing. -/
theorem C3_record_step (s : MonitorState) (table : String) (l : ℚ)
    (evs : List (String × Option ℚ)) :
    (∀ lat, (recordSample s table lat).total_probes = s.total_probes + 1)
  ∧ (recordSample s table (some l)).successful_probes = s.successful_probes + 1
  ∧ (recordSample s table (some l)).failed_probes = s.failed_probes
  ∧ (recordSample s table none).failed_probes = s.failed_probes + 1
  ∧ (recordSample s table none).successful_probes = s.successful_probes
  ∧ ((recordSample s table (some l)).tables table).latency_history
      = dequeAppend 100 ((s.tables table).latency_history) l
  ∧ ((recordSample s table (some l)).tables table).last_latency_ms = l
  ∧ ((recordSample s table none).tables table).latency_history
      = (s.tables table).latency_history
  ∧ ((recordSample s table none).tables table).last_latency_ms = -1
  ∧ (evs.foldl (fun st e => recordSample st e.1 e.2) initState).total_probes
      = (evs.foldl (fun st e => recordSample st e.1 e.2) initState).successful_probes
        + (evs.foldl (fun st e => recordSample st e.1 e.2) initState).failed_probes := by
  refine ⟨recordSample_total s table, rfl, rfl, rfl, rfl,
    recordSample_history_some s table l, ?_, recordSample_history_none s table, ?_, ?_⟩
  · simp [recordSample]
  · simp [recordSample]
  · have h := foldRecord_counters evs initState
    have h0 : initState.total_probes = 0 := rfl
    have h1 : initState.successful_probes = 0 := rfl
    have h2 : initState.failed_probes = 0 := rfl
    omega

/-! ### Claim C4 -/

/-- C4: for every sequence of recorded latency samples, the ring buffer
never exceeds its capacity; once at least capacity-many samples are in, the
buffer length is exactly the capacity and the contents are exactly the most
recent samples in arrival order (oldest evicted first); a table's buffer
built by recordSample calls equals the last 100 samples recorded for it;
and the avg/min/max/p95 helpers are computed from that window alone. -/
theorem C4_ring_buffer_window (xs : List ℚ) (cap : Nat) (table : String) :
    (xs.foldl (dequeAppend cap) []).length ≤ cap
  ∧ xs.foldl (dequeAppend cap) [] = takeLast cap xs
  ∧ (cap ≤ xs.length → (xs.foldl (dequeAppend cap) []).length = cap)
  ∧ (((xs.map (fun l => (table, some l))).foldl
        (fun st e => recordSample st e.1 e.2) initState).tables table).latency_history
      = takeLast 100 xs
  ∧ avg_latency (xs.foldl (dequeAppend cap) []) = avg_latency (takeLast cap xs)
  ∧ min_latency (xs.foldl (dequeAppend cap) []) = min_latency (takeLast cap xs)
  ∧ max_latency (xs.foldl (dequeAppend cap) []) = max_latency (takeLast cap xs)
  ∧ p95_latency (xs.foldl (dequeAppend cap) []) = p95_latency (takeLast cap xs) := by
  have he := foldl_dequeAppend_nil cap xs
  refine ⟨?_, he, ?_, ?_, by rw [he], by rw [he], by rw [he], by rw [he]⟩
  · rw [he]; exact takeLast_length_le _ _
  · intro hc; rw [he, takeLast_length]; omega
  · rw [foldRecord_history table xs initState]
    exact foldl_dequeAppend_nil 100 xs

/-- C4 witness: 150 samples into a capacity-100 buffer leave exactly 100. -/
theorem C4_ring_buffer_window_witness :
    100 ≤ (List.replicate 150 (5 : ℚ)).length
  ∧ ((List.replicate 150 (5 : ℚ)).foldl (dequeAppend 100) []).length = 100 :=
  ⟨by simp,
    (C4_ring_buffer_window (List.replicate 150 (5 : ℚ)) 100 "orders").2.2.1 (by simp)⟩

/-! ### Claim C5 -/

/-- C5: for a non-empty buffer, p95 returns the element of an
ascending-sorted permutation of the buffer at index
floor(len * 95 / 100) clamped to len - 1; for a 100-sample buffer holding
the values 1..100 it returns 96, the 96th smallest value (0-based index
95). -/
theorem C5_p95_index (h : List ℚ) (hne : h ≠ []) :
    (∃ s : List ℚ, s.Perm h ∧ s.Sorted (· ≤ ·) ∧
        p95_latency h = s.getD (min (h.length * 95 / 100) (h.length - 1)) 0)
  ∧ p95_latency ((List.range 100).map (fun n => ((n + 1 : Nat) : ℚ))) = 96 := by
  constructor
  · refine ⟨sortAsc h, List.perm_insertionSort _ _, List.sorted_insertionSort _ _, ?_⟩
    have hlen : (sortAsc h).length = h.length := (List.perm_insertionSort _ _).length_eq
    cases h with
    | nil => exact absurd rfl hne
    | cons a t =>
      show (sortAsc (a :: t)).getD
        (min ((sortAsc (a :: t)).length * 95 / 100) ((sortAsc (a :: t)).length - 1)) 0
        = (sortAsc (a :: t)).getD
            (min ((a :: t).length * 95 / 100) ((a :: t).length - 1)) 0
      rw [hlen]
  · decide

/-- C5 witness: the theorem applied to the one-element buffer. -/
theorem C5_p95_index_witness :
    (∃ s : List ℚ, s.Perm [(5 : ℚ)] ∧ s.Sorted (· ≤ ·) ∧
        p95_latency [(5 : ℚ)] = s.getD
          (min ([(5 : ℚ)].length * 95 / 100) ([(5 : ℚ)].length - 1)) 0)
  ∧ p95_latency ((List.range 100).map (fun n => ((n + 1 : Nat) : ℚ))) = 96 :=
  C5_p95_index [(5 : ℚ)] (by decide)

/-! ### Claim C6 -/

/-- C6: on an empty ring buffer avg, min, max and the percentile helper all
return 0 (totality of the embedded functions carries the no-exception,
no-division-by-zero part: the empty case is answered before any division or
indexing); and on every state, each helper leaves `self` exactly as it
found it -- the buffer is never mutated, the helpers work on a sorted
copy. -/
theorem C6_empty_buffer_helpers (s : TableStats) (he : s.latency_history = []) :
    (TableStats.avg_latency s).1 = 0
  ∧ (TableStats.min_latency s).1 = 0
  ∧ (TableStats.max_latency s).1 = 0
  ∧ (TableStats.p95_latency s).1 = 0
  ∧ ∀ t : TableStats,
      (TableStats.avg_latency t).2 = t ∧ (TableStats.min_latency t).2 = t
      ∧ (TableStats.max_latency t).2 = t ∧ (TableStats.p95_latency t).2 = t := by
  refine ⟨?_, ?_, ?_, ?_, fun t => ⟨rfl, rfl, rfl, rfl⟩⟩ <;>
    simp [TableStats.avg_latency, TableStats.min_latency,
      TableStats.max_latency, TableStats.p95_latency, he,
      avg_latency, min_latency, max_latency, p95_latency]

/-- C6 witness: the theorem applied to a fresh TableStats. -/
theorem C6_empty_buffer_helpers_witness :
    (TableStats.avg_latency {}).1 = 0
  ∧ (TableStats.min_latency {}).1 = 0
  ∧ (TableStats.max_latency {}).1 = 0
  ∧ (TableStats.p95_latency {}).1 = 0
  ∧ ∀ t : TableStats,
      (TableStats.avg_latency t).2 = t ∧ (TableStats.min_latency t).2 = t
      ∧ (TableStats.max_latency t).2 = t ∧ (TableStats.p95_latency t).2 = t :=
  C6_empty_buffer_helpers {} rfl

/-! ### Claim C7 -/

/-- C7: within one probe's poll phase, a transiently failing sink query
never aborts the probe: the probe's outcome is None exactly when no poll
tick within the budget finds the marker -- so only budget exhaustion (the
timeout) produces the failure outcome -- and when every tick before k
raises while tick k finds the marker, the probe still succeeds with the
latency of tick k. -/
theorem C7_poll_error_retried (table : String) (env : ProbeEnv)
    (hins : env.insertOk = true) :
    ((probe_latency table env).latency = none ↔
      ∀ i, i < env.pollBudget → isFound (pollStep table env i) = false)
  ∧ ∀ k, k < env.pollBudget →
      (∀ i, i < k → pollStep table env i = QueryRes.err) →
      isFound (pollStep table env k) = true →
      probe_latency table env = ⟨some k, 1, false⟩ := by
  have hpl := probe_latency_of_insertOk table env hins
  have hlat : (probe_latency table env).latency
      = pollLoop table env 0 env.pollBudget := by
    rw [hpl]; cases pollLoop table env 0 env.pollBudget <;> rfl
  constructor
  · rw [hlat, pollLoop_eq_none table env env.pollBudget 0]
    constructor
    · intro hall i hi
      exact hall i (Nat.zero_le i) (by omega)
    · intro hall i _ hi
      exact hall i (by omega)
  · intro k hk herrs hfound
    have hsome : pollLoop table env 0 env.pollBudget = some k :=
      pollLoop_eq_some table env env.pollBudget 0 k (Nat.zero_le k) (by omega)
        (fun i _ hik => by rw [herrs i hik]; rfl) hfound
    rw [hpl, hsome]

/-- C7 witness: a probe whose first two polls raise and whose third finds
the marker succeeds with the third tick's latency. -/
theorem C7_poll_error_retried_witness :
    probe_latency "orders"
      { insertOk := true,
        sinkPoll := fun i => if i < 2 then QueryRes.err else QueryRes.rows 1,
        pollBudget := 10, cleanupOk := true } = ⟨some 2, 1, false⟩ :=
  (C7_poll_error_retried "orders"
    { insertOk := true,
      sinkPoll := fun i => if i < 2 then QueryRes.err else QueryRes.rows 1,
      pollBudget := 10, cleanupOk := true } rfl).2 2 (by decide)
    (fun i hi => by simp [pollStep, hasLookupBranch, hi]) rfl

/-! ### Claim C8 -/

/-- C8: order_items is in the default table list, yet probe_latency has
neither an INSERT branch nor a sink SELECT branch for it: a probe of
order_items writes no row, every poll tick's fetch raises and is swallowed,
the poll loop runs out its whole budget, and the probe returns None with
its single cleanup attempt -- so the recording step counts it as a failed
probe. -/
theorem C8_order_items_probe (env : ProbeEnv) (s : MonitorState)
    (hins : env.insertOk = true) :
    "order_items" ∈ TABLES
  ∧ hasInsertBranch "order_items" = false
  ∧ insertedRows "order_items" = 0
  ∧ hasLookupBranch "order_items" = false
  ∧ (∀ i, pollStep "order_items" env i = QueryRes.err)
  ∧ probe_latency "order_items" env = ⟨none, 1, false⟩
  ∧ (recordSample s "order_items" none).failed_probes = s.failed_probes + 1 := by
  refine ⟨by decide, rfl, rfl, rfl, fun i => rfl, ?_, rfl⟩
  have hnone : pollLoop "order_items" env 0 env.pollBudget = none :=
    (pollLoop_eq_none "order_items" env env.pollBudget 0).mpr (fun i _ _ => rfl)
  rw [probe_latency_of_insertOk "order_items" env hins, hnone]

/-- C8 witness: even when the sink would report the marker present at
every tick, an order_items probe still times out, because no lookup branch
ever reaches the sink. -/
theorem C8_order_items_probe_witness :
    probe_latency "order_items"
      { insertOk := true, sinkPoll := fun _ => QueryRes.rows 7,
        pollBudget := 5, cleanupOk := true } = ⟨none, 1, false⟩ :=
  (C8_order_items_probe
    { insertOk := true, sinkPoll := fun _ => QueryRes.rows 7,
      pollBudget := 5, cleanupOk := true } initState rfl).2.2.2.2.2.1

/-! ### Claim C9 -/

/-- C9: the k-th iteration of the probe loop probes
tables[k mod len(tables)] -- round-robin over the non-empty configured
list -- with exactly one probe and exactly one sleep of the configured
interval per iteration, the sleep after the probe; over n iterations the
trace holds exactly n probes and n sleeps, so the interval applies per
call, not per full round. -/
theorem C9_round_robin (tables : List String) (interval : ℚ) (n k : Nat)
    (hne : tables ≠ []) :
    probeIterTrace tables interval k =
      [Action.probe (tables.get ⟨k % tables.length,
          Nat.mod_lt k (List.length_pos.mpr hne)⟩),
        Action.record (tables.get ⟨k % tables.length,
          Nat.mod_lt k (List.length_pos.mpr hne)⟩),
        Action.sleep interval]
  ∧ (probeIterTrace tables interval k).countP isProbeAct = 1
  ∧ (probeIterTrace tables interval k).countP isSleepAct = 1
  ∧ (probeThreadTrace tables interval n).countP isProbeAct = n
  ∧ (probeThreadTrace tables interval n).countP isSleepAct = n := by
  have hget : tableAt tables k
      = tables.get ⟨k % tables.length, Nat.mod_lt k (List.length_pos.mpr hne)⟩ := by
    rw [tableAt, List.getD_eq_getElem tables "" (Nat.mod_lt k (List.length_pos.mpr hne))]
    rfl
  refine ⟨by rw [probeIterTrace, hget], rfl, rfl, ?_, ?_⟩
  · simpa using probeThreadTrace_count tables interval isProbeAct 1 (fun _ => rfl) n
  · simpa using probeThreadTrace_count tables interval isSleepAct 1 (fun _ => rfl) n

/-- C9 witness: with the default five tables, iteration 7 probes
tables[7 mod 5] = "products", and three iterations hold three probes. -/
theorem C9_round_robin_witness :
    probeIterTrace TABLES (2 : ℚ) 7 =
      [Action.probe "products", Action.record "products", Action.sleep (2 : ℚ)]
  ∧ (probeThreadTrace TABLES (2 : ℚ) 3).countP isProbeAct = 3 := by
  have h := C9_round_robin TABLES (2 : ℚ) 3 7 (by decide)
  exact ⟨h.1.trans (by rfl), h.2.2.2.1⟩

/-! ### Claim C10 -/

/-- C10 counterexample: the claim says the MonitorState lock is never held
while a count query is in flight; but in get_table_counts the lock is
acquired before the per-table COUNT queries run and released only after
the whole pass, so the reconciliation task's trace performs network calls
with the lock held. -/
theorem C10_counterexample : netWhileHeld countsTaskEvents = true := by
  decide

/-- C10 amended: the probe task acquires the lock only around its
in-memory update -- no network call of a probe iteration happens with the
lock held, for any number of polls -- but the reconciliation task holds
the lock across its per-table count queries. -/
theorem C10_lock_discipline (polls : Nat) :
    netWhileHeld (probeTaskEvents polls) = false
  ∧ netWhileHeld countsTaskEvents = true := by
  constructor
  · have h4 : ∀ rest, netWhileHeldAux 0 (Ev.net "mysql connect" ::
        Ev.net "insert marker" :: Ev.net "commit" ::
        Ev.net "starrocks connect" :: rest) = netWhileHeldAux 0 rest := by
      intro rest; simp [netWhileHeldAux]
    have hmain : netWhileHeld (probeTaskEvents polls)
        = netWhileHeldAux 0 ((List.range polls).map (fun _ => Ev.net "sink poll query")
          ++ [Ev.net "cleanup delete", Ev.acquire,
            Ev.mem "update counters and table stats", Ev.release]) := h4 _
    rw [hmain, netWhileHeldAux_const_net]
    decide
  · decide

end CdcMonitor
